import Mathlib

/-!
Verification of the transaction core of go-nebulas (`core/transaction.go`):
canonical hashing, gas accounting, the execution state machine
(`VerifyExecution`), integrity verification, and protobuf round-tripping.

Machine integers are modelled as `Nat`/`Int`; byte strings as `List Nat`
(each entry a byte value). Balances are modelled as `Int` so that debits and
credits are exact. External collaborators (SHA3-256, the signature scheme,
payload implementations, the account-state trie) are modelled parametrically
or from the specification's contract for them, as noted on each definition.
-/

namespace Nebulas

/-- Byte strings (addresses, hashes, signatures, payload bytes). -/
abbrev Bytes := List Nat

/-- Addresses are opaque byte strings; equality is byte equality. -/
abbrev Addr := List Nat

/-- Modelled from the spec: big-endian byte encoding of a natural number into
`k` bytes (`byteutils.FromUint64` / `FromUint32` produce the 8- and 4-byte
cases; the 16-byte case is the fixed-size `Uint128` encoding). -/
def beBytes : Nat → Nat → List Nat
  | 0, _ => []
  | k + 1, n => beBytes k (n / 256) ++ [n % 256]

/-- Modelled from the spec: big-endian two's-complement encoding of a signed
integer into `k` bytes (`byteutils.FromInt64` is the 8-byte case). -/
def beBytesInt (k : Nat) (i : Int) : List Nat :=
  beBytes k (i.emod (2 ^ (8 * k))).toNat

/-- Modelled from the spec: `Uint128.ToFixedSizeByteSlice`, the 16-byte
big-endian encoding of a 128-bit value; fails when the value needs more
than 128 bits. -/
def toFixedSizeByteSlice (n : Nat) : Option (List Nat) :=
  if n < 2 ^ 128 then some (beBytes 16 n) else none

/-- Decode a big-endian byte string into a natural number. -/
def bytesToNat (bs : List Nat) : Nat :=
  bs.foldl (fun a b => a * 256 + b) 0

/-- Modelled from the spec: `util.NewUint128FromFixedSizeByteSlice`, decoding
a 16-byte big-endian slice; fails on any other length. -/
def fromFixedSizeByteSlice (bs : List Nat) : Option Nat :=
  if bs.length = 16 then some (bytesToNat bs) else none

/-- Modelled from the spec: a protobuf varint (base-128, little-endian
groups, continuation bit on all but the last group). -/
def varint (n : Nat) : List Nat :=
  if h : n < 128 then [n]
  else (n % 128 + 128) :: varint (n / 128)
termination_by n
decreasing_by exact Nat.div_lt_self (by omega) (by omega)

/-- The `(type, payload)` record attached to a transaction (`corepb.Data`). -/
structure Data where
  type : String
  payload : Bytes
deriving DecidableEq, Repr

/-- Modelled from the spec: the deterministic tag-length-value protobuf
serialization of a `Data` record (`proto.Marshal` on `corepb.Data`): field 1
is the type tag as a length-prefixed string, field 2 the payload as
length-prefixed bytes; empty fields are omitted. -/
def protoMarshalData (d : Data) : List Nat :=
  (if d.type.length = 0 then []
   else 10 :: varint d.type.length ++ d.type.data.map Char.toNat)
  ++ (if d.payload.length = 0 then []
      else 18 :: varint d.payload.length ++ d.payload)

/-- The transaction record (`core.Transaction`). Go field types: `hash`,
`sign` byte slices; `from`, `to` addresses; `value`, `gasPrice`, `gasLimit`
`Uint128`; `nonce` `uint64`; `timestamp` `int64`; `chainID` `uint32`;
`alg` `uint8`. -/
structure Transaction where
  hash : Bytes
  from_ : Addr
  to_ : Addr
  value : Nat
  nonce : Nat
  timestamp : Int
  data : Data
  chainID : Nat
  gasPrice : Nat
  gasLimit : Nat
  alg : Nat
  sign : Bytes
deriving DecidableEq, Repr

/-- `MinGasCountPerTransaction`: default gas for a normal transaction. -/
def MinGasCountPerTransaction : Nat := 20000

/-- `GasCountPerByte`: gas cost per byte of attached data. -/
def GasCountPerByte : Nat := 1

/-- `Transaction.DataLen`: length of the payload bytes. -/
def Transaction.DataLen (tx : Transaction) : Nat := tx.data.payload.length

/-- `Transaction.GasCountOfTxBase`: base gas of a transaction, the minimum
per-transaction gas plus a per-byte cost for attached data. -/
def GasCountOfTxBase (tx : Transaction) : Nat :=
  MinGasCountPerTransaction +
    (if tx.DataLen > 0 then tx.DataLen * GasCountPerByte else 0)

/-- `Transaction.MinBalanceRequired`: `gasPrice * gasLimit`. -/
def MinBalanceRequired (tx : Transaction) : Nat := tx.gasPrice * tx.gasLimit

/-- `HashTransaction`, parametric in the SHA3-256 primitive (external
crypto): encodes `value`, `gasPrice`, `gasLimit` as fixed 16-byte slices,
serializes the data record, and hashes the concatenation of the fields in
the source's order. -/
def HashTransaction (sha : List Nat → List Nat) (tx : Transaction) :
    Option Bytes :=
  match toFixedSizeByteSlice tx.value with
  | none => none
  | some value =>
    let data := protoMarshalData tx.data
    match toFixedSizeByteSlice tx.gasPrice with
    | none => none
    | some gasPrice =>
      match toFixedSizeByteSlice tx.gasLimit with
      | none => none
      | some gasLimit =>
        some (sha (tx.from_ ++ tx.to_ ++ value ++
          beBytes 8 tx.nonce ++ beBytesInt 8 tx.timestamp ++ data ++
          beBytes 4 tx.chainID ++ gasPrice ++ gasLimit))

/-- The error values raised by the transaction core. `other` stands for
errors produced by external collaborators (payload loaders, crypto). -/
inductive Err where
  | invalidChainID
  | invalidTransactionHash
  | invalidTransactionSigner
  | insufficientBalance
  | outOfGasLimit
  | invalidTxPayloadType
  | encodeFailed
  | other : String → Err
deriving DecidableEq, Repr

/-- Event topic `chain.executeTxSuccess`. -/
def TopicExecuteTxSuccess : String := "chain.executeTxSuccess"

/-- Event topic `chain.executeTxFailed`. -/
def TopicExecuteTxFailed : String := "chain.executeTxFailed"

/-- An emitted event: its topic and the error slot of the marshalled event
data (`triggerEvent` serializes the transaction plus, on failure, the error
value passed to it; `none` models a nil error, which marshals with no error
field). -/
structure Event where
  topic : String
  err : Option Err
deriving DecidableEq, Repr

/-- Account balances. Modelled from the spec: `GetOrCreateUserAccount` is
idempotent and a fresh account has zero balance, so the account state is a
total map from addresses to balances. -/
abbrev Balances := Addr → Int

/-- Modelled from the spec: `Account.SubBalance`. -/
def subBalance (acc : Balances) (a : Addr) (v : Nat) : Balances :=
  fun x => if x = a then acc x - v else acc x

/-- Modelled from the spec: `Account.AddBalance`. -/
def addBalance (acc : Balances) (a : Addr) (v : Nat) : Balances :=
  fun x => if x = a then acc x + v else acc x

/-- A decoded payload (`TxPayload` interface): its fixed base gas count and
its `Execute` behaviour, which acts on the batched account state and returns
the execution gas, an optional error and the mutated state. Payload
implementations are external collaborators; concrete payloads instantiate
this record. -/
structure TxPayload where
  baseGasCount : Nat
  execute : Balances → Nat × Option Err × Balances

/-- The five payload loaders (`LoadBinaryPayload` etc.) are external
collaborators; an environment supplies them. -/
structure PayloadEnv where
  loadBinary : Bytes → Except Err TxPayload
  loadDeploy : Bytes → Except Err TxPayload
  loadCall : Bytes → Except Err TxPayload
  loadCandidate : Bytes → Except Err TxPayload
  loadDelegate : Bytes → Except Err TxPayload

/-- Modelled from the spec: the recognized payload type tags. -/
def TxPayloadBinaryType : String := "binary"

/-- Modelled from the spec: the deploy payload type tag. -/
def TxPayloadDeployType : String := "deploy"

/-- Modelled from the spec: the call payload type tag. -/
def TxPayloadCallType : String := "call"

/-- Modelled from the spec: the candidate payload type tag. -/
def TxPayloadCandidateType : String := "candidate"

/-- Modelled from the spec: the delegate payload type tag. -/
def TxPayloadDelegateType : String := "delegate"

/-- `Transaction.LoadPayload`: dispatch on the payload type tag; unknown
tags raise `ErrInvalidTxPayloadType`. -/
def LoadPayload (env : PayloadEnv) (tx : Transaction) :
    Except Err TxPayload :=
  if tx.data.type = TxPayloadBinaryType then env.loadBinary tx.data.payload
  else if tx.data.type = TxPayloadDeployType then
    env.loadDeploy tx.data.payload
  else if tx.data.type = TxPayloadCallType then env.loadCall tx.data.payload
  else if tx.data.type = TxPayloadCandidateType then
    env.loadCandidate tx.data.payload
  else if tx.data.type = TxPayloadDelegateType then
    env.loadDelegate tx.data.payload
  else Except.error Err.invalidTxPayloadType

/-- The mutable state a transaction executes against: the block's account
state, the block's buffered event log (keyed by transaction hash), and the
stack of open batch snapshots of the payload context. -/
structure ExecState where
  acc : Balances
  events : List (Bytes × Event)
  batch : List Balances

/-- Modelled from the spec: `BeginBatch` snapshots the current account state
so that payload mutations can be atomically undone. -/
def beginBatch (s : ExecState) : ExecState :=
  { s with batch := s.acc :: s.batch }

/-- Modelled from the spec: `RollBack` restores the most recent snapshot. -/
def rollBack (s : ExecState) : ExecState :=
  match s.batch with
  | [] => s
  | a :: r => { s with acc := a, batch := r }

/-- Modelled from the spec: `Commit` keeps the mutations and closes the most
recent batch. -/
def commit (s : ExecState) : ExecState :=
  match s.batch with
  | [] => s
  | _ :: r => { s with batch := r }

/-- `Transaction.gasConsumption`: debit `gasPrice * gas` from the sender and
credit it to the coinbase. -/
def gasConsumption (tx : Transaction) (coinbase : Addr) (gas : Nat)
    (acc : Balances) : Balances :=
  addBalance (subBalance acc tx.from_ (tx.gasPrice * gas)) coinbase
    (tx.gasPrice * gas)

/-- `Transaction.triggerEvent`: record an event with the given topic and
error slot in the block's event log, keyed by the transaction hash. -/
def triggerEvent (tx : Transaction) (topic : String) (e : Option Err)
    (s : ExecState) : ExecState :=
  { s with events := s.events ++ [(tx.hash, { topic := topic, err := e })] }

/-- `Transaction.VerifyExecution`, the execution state machine, translated
branch for branch from the source: solvency precheck, base gas check,
payload decode, batch begin, augmented base gas check, payload execution
with rollback/commit, gas consumption, value settlement and event emission.
Returns the `(gas, error)` pair and the post-state. The batch begin of the
in-memory state model always succeeds. -/
def VerifyExecution (env : PayloadEnv) (tx : Transaction) (coinbase : Addr)
    (s : ExecState) : (Nat × Option Err) × ExecState :=
  if s.acc tx.from_ < (MinBalanceRequired tx : Int) then
    ((0, some Err.insufficientBalance), s)
  else
    let gasUsed := GasCountOfTxBase tx
    if tx.gasLimit < gasUsed then
      ((0, some Err.outOfGasLimit), s)
    else
      match LoadPayload env tx with
      | Except.error e =>
          let s1 := { s with acc := gasConsumption tx coinbase gasUsed s.acc }
          ((gasUsed, none), triggerEvent tx TopicExecuteTxFailed (some e) s1)
      | Except.ok payload =>
          let s1 := beginBatch s
          let gasUsed2 := gasUsed + payload.baseGasCount
          if tx.gasLimit < gasUsed2 then
            let s2 := { s1 with
              acc := gasConsumption tx coinbase tx.gasLimit s1.acc }
            ((tx.gasLimit, none),
              triggerEvent tx TopicExecuteTxFailed none s2)
          else
            let r := payload.execute s1.acc
            let gasExecution := r.1
            let execErr := r.2.1
            let s2 := { s1 with acc := r.2.2 }
            let s3 := match execErr with
              | some _ => rollBack s2
              | none => commit s2
            let gas := gasUsed2 + gasExecution
            let s4 := { s3 with acc := gasConsumption tx coinbase gas s3.acc }
            match execErr with
            | some e =>
                ((gas, none), triggerEvent tx TopicExecuteTxFailed (some e) s4)
            | none =>
                if s4.acc tx.from_ < (tx.value : Int) then
                  ((gas, none),
                    triggerEvent tx TopicExecuteTxFailed
                      (some Err.insufficientBalance) s4)
                else
                  let s5 := { s4 with
                    acc := addBalance (subBalance s4.acc tx.from_ tx.value)
                      tx.to_ tx.value }
                  ((gas, none), triggerEvent tx TopicExecuteTxSuccess none s5)

/-- A small concrete transaction used by several witnesses. -/
def txW : Transaction :=
  { hash := [7], from_ := [1], to_ := [2], value := 5, nonce := 3,
    timestamp := 12, data := { type := "binary", payload := [] },
    chainID := 100, gasPrice := 2, gasLimit := 20000, alg := 1,
    sign := [9] }

/-- A payload environment whose loaders all return a trivial payload
(zero base gas, execution succeeds without touching state or gas). -/
def envW : PayloadEnv :=
  { loadBinary := fun _ => Except.ok ⟨0, fun a => (0, none, a)⟩,
    loadDeploy := fun _ => Except.ok ⟨0, fun a => (0, none, a)⟩,
    loadCall := fun _ => Except.ok ⟨0, fun a => (0, none, a)⟩,
    loadCandidate := fun _ => Except.ok ⟨0, fun a => (0, none, a)⟩,
    loadDelegate := fun _ => Except.ok ⟨0, fun a => (0, none, a)⟩ }

/-- A concrete coinbase address for witnesses. -/
def cbW : Addr := [3]

/-- A state whose accounts cannot cover the witness transaction's
`gasPrice * gasLimit`. -/
def sPoor : ExecState := { acc := fun _ => 10, events := [], batch := [] }

/-- A state whose accounts are richly funded. -/
def sRich : ExecState :=
  { acc := fun _ => 1000000000000, events := [], batch := [] }

/-- The witness transaction with a gas limit below the transaction base
gas. -/
def txLowLimit : Transaction := { txW with gasLimit := 100 }

/-- A payload environment whose payloads report 1000 units of execution gas
(with a 20000-gas limit and 20000 base gas this overshoots the limit). -/
def envOver : PayloadEnv :=
  { loadBinary := fun _ => Except.ok ⟨0, fun a => (1000, none, a)⟩,
    loadDeploy := fun _ => Except.ok ⟨0, fun a => (1000, none, a)⟩,
    loadCall := fun _ => Except.ok ⟨0, fun a => (1000, none, a)⟩,
    loadCandidate := fun _ => Except.ok ⟨0, fun a => (1000, none, a)⟩,
    loadDelegate := fun _ => Except.ok ⟨0, fun a => (1000, none, a)⟩ }

/-- A payload environment whose payloads carry a 20000 base gas count, so
that base gas plus payload base gas exceeds the witness gas limit. -/
def envBig : PayloadEnv :=
  { loadBinary := fun _ => Except.ok ⟨20000, fun a => (0, none, a)⟩,
    loadDeploy := fun _ => Except.ok ⟨20000, fun a => (0, none, a)⟩,
    loadCall := fun _ => Except.ok ⟨20000, fun a => (0, none, a)⟩,
    loadCandidate := fun _ => Except.ok ⟨20000, fun a => (0, none, a)⟩,
    loadDelegate := fun _ => Except.ok ⟨20000, fun a => (0, none, a)⟩ }

/-- The external crypto collaborators used by `verifySign`
(`crypto.NewSignature`, `RecoverPublic`, `PublicKey.Encoded`,
`NewAddressFromPublicKey`), supplied as an environment. -/
structure SignEnv where
  newSignature : Nat → Except Err Unit
  recoverPublic : Nat → Bytes → Bytes → Except Err Bytes
  encoded : Bytes → Except Err Bytes
  addressFromPublicKey : Bytes → Except Err Addr

/-- `Transaction.verifySign`: build the signature scheme for `alg`, recover
the public key from `(hash, sign)`, encode it, derive the user address, and
byte-compare it against the declared sender. -/
def verifySign (env : SignEnv) (tx : Transaction) : Except Err Unit :=
  match env.newSignature tx.alg with
  | Except.error e => Except.error e
  | Except.ok _ =>
    match env.recoverPublic tx.alg tx.hash tx.sign with
    | Except.error e => Except.error e
    | Except.ok pub =>
      match env.encoded pub with
      | Except.error e => Except.error e
      | Except.ok pubdata =>
        match env.addressFromPublicKey pubdata with
        | Except.error e => Except.error e
        | Except.ok addr =>
          if tx.from_ = addr then Except.ok ()
          else Except.error Err.invalidTransactionSigner

/-- `Transaction.VerifyIntegrity`: check the chain id, recompute and compare
the canonical hash, then verify the signature. -/
def VerifyIntegrity (sha : List Nat → List Nat) (env : SignEnv)
    (chainID : Nat) (tx : Transaction) : Except Err Unit :=
  if tx.chainID ≠ chainID then Except.error Err.invalidChainID
  else
    match HashTransaction sha tx with
    | none => Except.error Err.encodeFailed
    | some wantedHash =>
      if ¬ wantedHash = tx.hash then Except.error Err.invalidTransactionHash
      else
        match verifySign env tx with
        | Except.error e => Except.error e
        | Except.ok _ => Except.ok ()

/-- A hash oracle for integrity witnesses: every input hashes to `[42]`. -/
def shaW : List Nat → List Nat := fun _ => [42]

/-- The witness transaction carrying the hash that `shaW` assigns to it. -/
def txHashW : Transaction := { txW with hash := [42] }

/-- A crypto environment whose recovery chain succeeds and derives the
witness sender address `[1]`. -/
def signEnvW : SignEnv :=
  { newSignature := fun _ => Except.ok (),
    recoverPublic := fun _ _ _ => Except.ok [5],
    encoded := fun b => Except.ok b,
    addressFromPublicKey := fun _ => Except.ok [1] }

/-- The wire message `corepb.Transaction`: the three `Uint128` fields are
carried as fixed-size byte slices, `alg` as a `uint32`. -/
structure PbTransaction where
  hash : Bytes
  from_ : Bytes
  to_ : Bytes
  value : Bytes
  nonce : Nat
  timestamp : Int
  data : Data
  chainId : Nat
  gasPrice : Bytes
  gasLimit : Bytes
  alg : Nat
  sign : Bytes
deriving DecidableEq, Repr

/-- `Transaction.ToProto`: encode `value`, `gasPrice`, `gasLimit` as fixed
16-byte slices and copy the remaining fields. -/
def ToProto (tx : Transaction) : Option PbTransaction :=
  match toFixedSizeByteSlice tx.value with
  | none => none
  | some value =>
    match toFixedSizeByteSlice tx.gasPrice with
    | none => none
    | some gasPrice =>
      match toFixedSizeByteSlice tx.gasLimit with
      | none => none
      | some gasLimit =>
        some { hash := tx.hash, from_ := tx.from_, to_ := tx.to_,
               value := value, nonce := tx.nonce,
               timestamp := tx.timestamp, data := tx.data,
               chainId := tx.chainID, gasPrice := gasPrice,
               gasLimit := gasLimit, alg := tx.alg, sign := tx.sign }

/-- `Transaction.FromProto`: decode the fixed-size slices back into
`Uint128` values and copy the remaining fields; `alg` is narrowed to
`uint8`. -/
def FromProto (m : PbTransaction) : Option Transaction :=
  match fromFixedSizeByteSlice m.value with
  | none => none
  | some value =>
    match fromFixedSizeByteSlice m.gasPrice with
    | none => none
    | some gasPrice =>
      match fromFixedSizeByteSlice m.gasLimit with
      | none => none
      | some gasLimit =>
        some { hash := m.hash, from_ := m.from_, to_ := m.to_,
               value := value, nonce := m.nonce,
               timestamp := m.timestamp, data := m.data,
               chainID := m.chainId, gasPrice := gasPrice,
               gasLimit := gasLimit, alg := m.alg % 256, sign := m.sign }

end Nebulas

namespace Nebulas

/-- `C8`: `GasCountOfTxBase` returns `MinGasPerTx (20000) +
data_len * GasPerByte` (with `GasPerByte = 1`) when the payload is
non-empty, and exactly 20000 when the payload is empty. -/
theorem gasCountOfTxBase_spec (tx : Transaction) :
    GasCountOfTxBase tx =
      if tx.DataLen = 0 then 20000 else 20000 + tx.DataLen * 1 := by
  by_cases h : tx.DataLen = 0 <;>
    simp [GasCountOfTxBase, MinGasCountPerTransaction, GasCountPerByte, h]

/-- `C1`: for every transaction whose three `Uint128` fields fit in 128 bits,
`HashTransaction` returns the SHA3-256 digest of the concatenation, in this
exact order, of: from bytes, to bytes, 16-byte big-endian value, 8-byte
big-endian nonce, 8-byte big-endian timestamp, the serialized data record,
4-byte big-endian chain id, 16-byte big-endian gas price, and 16-byte
big-endian gas limit. -/
theorem hashTransaction_spec (sha : List Nat → List Nat) (tx : Transaction)
    (hv : tx.value < 2 ^ 128) (hp : tx.gasPrice < 2 ^ 128)
    (hl : tx.gasLimit < 2 ^ 128) :
    HashTransaction sha tx =
      some (sha (tx.from_ ++ tx.to_ ++ beBytes 16 tx.value ++
        beBytes 8 tx.nonce ++ beBytesInt 8 tx.timestamp ++
        protoMarshalData tx.data ++ beBytes 4 tx.chainID ++
        beBytes 16 tx.gasPrice ++ beBytes 16 tx.gasLimit)) := by
  have hv' : tx.value < 340282366920938463463374607431768211456 := hv
  have hp' : tx.gasPrice < 340282366920938463463374607431768211456 := hp
  have hl' : tx.gasLimit < 340282366920938463463374607431768211456 := hl
  simp [HashTransaction, toFixedSizeByteSlice, hv', hp', hl']

/-- Witness for `C1` at a concrete transaction and hash function. -/
theorem hashTransaction_spec_witness :
    HashTransaction (fun bs => bs) txW =
      some ((fun bs => bs) (txW.from_ ++ txW.to_ ++ beBytes 16 txW.value ++
        beBytes 8 txW.nonce ++ beBytesInt 8 txW.timestamp ++
        protoMarshalData txW.data ++ beBytes 4 txW.chainID ++
        beBytes 16 txW.gasPrice ++ beBytes 16 txW.gasLimit)) :=
  hashTransaction_spec (fun bs => bs) txW (by decide) (by decide) (by decide)

/-- `C2`: when the sender's balance cannot cover `gasPrice * gasLimit`,
`VerifyExecution` returns zero gas with `ErrInsufficientBalance`; otherwise,
when the gas limit is below the transaction base gas, it returns zero gas
with `ErrOutOfGasLimit`. In both cases the returned state is the pre-call
state itself: no balance is mutated, no event is recorded, no batch is
opened. -/
theorem verifyExecution_preflight (env : PayloadEnv) (tx : Transaction)
    (coinbase : Addr) (s : ExecState) :
    (s.acc tx.from_ < (MinBalanceRequired tx : Int) →
      VerifyExecution env tx coinbase s =
        ((0, some Err.insufficientBalance), s)) ∧
    (¬ s.acc tx.from_ < (MinBalanceRequired tx : Int) →
      tx.gasLimit < GasCountOfTxBase tx →
      VerifyExecution env tx coinbase s =
        ((0, some Err.outOfGasLimit), s)) := by
  constructor
  · intro h
    simp [VerifyExecution, h]
  · intro h1 h2
    simp [VerifyExecution, h1, h2]

/-- Witness for `C2`: a concrete under-funded sender is rejected with
`ErrInsufficientBalance`, and a concrete under-limited transaction with
`ErrOutOfGasLimit`, both leaving the state untouched. -/
theorem verifyExecution_preflight_witness :
    VerifyExecution envW txW cbW sPoor =
        ((0, some Err.insufficientBalance), sPoor) ∧
    VerifyExecution envW txLowLimit cbW sRich =
        ((0, some Err.outOfGasLimit), sRich) :=
  ⟨(verifyExecution_preflight envW txW cbW sPoor).1 (by decide),
   (verifyExecution_preflight envW txLowLimit cbW sRich).2 (by decide)
     (by decide)⟩

/-- `C9`: a pre-flight rejection (solvency or base-gas check) records no
event, and every other execution records exactly one event, whose topic is
`ExecuteTxSuccess` or `ExecuteTxFailed`. -/
theorem verifyExecution_event_exclusivity (env : PayloadEnv)
    (tx : Transaction) (coinbase : Addr) (s : ExecState) :
    (s.acc tx.from_ < (MinBalanceRequired tx : Int) ∨
        tx.gasLimit < GasCountOfTxBase tx →
      ((VerifyExecution env tx coinbase s).2).events = s.events) ∧
    (¬ s.acc tx.from_ < (MinBalanceRequired tx : Int) →
      ¬ tx.gasLimit < GasCountOfTxBase tx →
      ∃ e : Event,
        (e.topic = TopicExecuteTxSuccess ∨ e.topic = TopicExecuteTxFailed) ∧
        ((VerifyExecution env tx coinbase s).2).events =
          s.events ++ [(tx.hash, e)]) := by
  constructor
  · intro h
    by_cases h1 : s.acc tx.from_ < (MinBalanceRequired tx : Int)
    · simp [VerifyExecution, h1]
    · have h2 : tx.gasLimit < GasCountOfTxBase tx := h.resolve_left h1
      simp [VerifyExecution, h1, h2]
  · intro h1 h2
    cases hLP : LoadPayload env tx with
    | error e =>
        exact ⟨{ topic := TopicExecuteTxFailed, err := some e }, Or.inr rfl,
          by simp [VerifyExecution, h1, h2, hLP, triggerEvent]⟩
    | ok p =>
        by_cases h3 : tx.gasLimit < GasCountOfTxBase tx + p.baseGasCount
        · exact ⟨{ topic := TopicExecuteTxFailed, err := none }, Or.inr rfl,
            by simp [VerifyExecution, h1, h2, hLP, h3, triggerEvent,
              beginBatch]⟩
        · cases hE : (p.execute s.acc).2.1 with
          | some e =>
              exact ⟨⟨TopicExecuteTxFailed, some e⟩, Or.inr rfl,
                by simp [VerifyExecution, h1, h2, hLP, h3, hE, triggerEvent,
                  beginBatch, rollBack]⟩
          | none =>
              by_cases h4 :
                gasConsumption tx coinbase
                    (GasCountOfTxBase tx + p.baseGasCount +
                      (p.execute s.acc).1)
                    (p.execute s.acc).2.2 tx.from_ <
                  (tx.value : Int)
              · exact ⟨⟨TopicExecuteTxFailed, some Err.insufficientBalance⟩,
                  Or.inr rfl,
                  by simp [VerifyExecution, h1, h2, hLP, h3, hE, h4,
                    triggerEvent, beginBatch, commit]⟩
              · exact ⟨⟨TopicExecuteTxSuccess, none⟩, Or.inl rfl,
                  by simp [VerifyExecution, h1, h2, hLP, h3, hE, h4,
                    triggerEvent, beginBatch, commit]⟩

/-- Witness for `C9`: a concrete fully-funded execution records exactly one
event. -/
theorem verifyExecution_event_exclusivity_witness :
    ∃ e : Event,
      (e.topic = TopicExecuteTxSuccess ∨ e.topic = TopicExecuteTxFailed) ∧
      ((VerifyExecution envW txW cbW sRich).2).events =
        sRich.events ++ [(txW.hash, e)] :=
  (verifyExecution_event_exclusivity envW txW cbW sRich).2 (by decide)
    (by decide)

/-- `C3`: on the successful value-settlement branch — payload loaded,
all gas checks passed, payload execution committed without error, and the
post-gas balance covers the value — with pairwise-distinct from, to and
coinbase addresses, the sender's balance drops by exactly
`value + gasPrice * gas`, the recipient's rises by exactly `value`, and the
coinbase's rises by exactly `gasPrice * gas`, relative to the committed
post-payload state; hence the sender and recipient deltas sum to
`-(gasPrice * gas)`. -/
theorem verifyExecution_conservation (env : PayloadEnv) (tx : Transaction)
    (coinbase : Addr) (s : ExecState) (p : TxPayload) (ge : Nat)
    (acc2 : Balances)
    (h1 : ¬ s.acc tx.from_ < (MinBalanceRequired tx : Int))
    (h2 : ¬ tx.gasLimit < GasCountOfTxBase tx)
    (hLP : LoadPayload env tx = Except.ok p)
    (h3 : ¬ tx.gasLimit < GasCountOfTxBase tx + p.baseGasCount)
    (hE : p.execute s.acc = (ge, none, acc2))
    (h4 : ¬ gasConsumption tx coinbase
        (GasCountOfTxBase tx + p.baseGasCount + ge) acc2 tx.from_ <
      (tx.value : Int))
    (hft : tx.from_ ≠ tx.to_) (hfc : tx.from_ ≠ coinbase)
    (htc : tx.to_ ≠ coinbase) :
    ((VerifyExecution env tx coinbase s).2).acc tx.from_ =
      acc2 tx.from_ - tx.value -
        (tx.gasPrice * (GasCountOfTxBase tx + p.baseGasCount + ge) : Nat) ∧
    ((VerifyExecution env tx coinbase s).2).acc tx.to_ =
      acc2 tx.to_ + tx.value ∧
    ((VerifyExecution env tx coinbase s).2).acc coinbase =
      acc2 coinbase +
        (tx.gasPrice * (GasCountOfTxBase tx + p.baseGasCount + ge) : Nat) ∧
    (((VerifyExecution env tx coinbase s).2).acc tx.from_ -
        acc2 tx.from_) +
      (((VerifyExecution env tx coinbase s).2).acc tx.to_ - acc2 tx.to_) =
      -((tx.gasPrice * (GasCountOfTxBase tx + p.baseGasCount + ge) : Nat)) := by
  have hft' : tx.to_ ≠ tx.from_ := Ne.symm hft
  have hfc' : coinbase ≠ tx.from_ := Ne.symm hfc
  have htc' : coinbase ≠ tx.to_ := Ne.symm htc
  have hmain :
      ((VerifyExecution env tx coinbase s).2).acc =
        addBalance
          (subBalance
            (gasConsumption tx coinbase
              (GasCountOfTxBase tx + p.baseGasCount + ge) acc2)
            tx.from_ tx.value)
          tx.to_ tx.value := by
    simp [VerifyExecution, h1, h2, hLP, h3, hE, h4, beginBatch, commit,
      triggerEvent]
  rw [hmain]
  simp only [gasConsumption, addBalance, subBalance]
  refine ⟨?_, ?_, ?_, ?_⟩ <;>
    simp [hft, hfc, htc, hft', hfc', htc'] <;> ring

/-- Witness for `C3`: a concrete fully-funded transfer satisfies all branch
hypotheses and the three balance deltas. -/
theorem verifyExecution_conservation_witness :
    ((VerifyExecution envW txW cbW sRich).2).acc txW.from_ =
      sRich.acc txW.from_ - txW.value -
        (txW.gasPrice * (GasCountOfTxBase txW + 0 + 0) : Nat) ∧
    ((VerifyExecution envW txW cbW sRich).2).acc txW.to_ =
      sRich.acc txW.to_ + txW.value ∧
    ((VerifyExecution envW txW cbW sRich).2).acc cbW =
      sRich.acc cbW + (txW.gasPrice * (GasCountOfTxBase txW + 0 + 0) : Nat) ∧
    (((VerifyExecution envW txW cbW sRich).2).acc txW.from_ -
        sRich.acc txW.from_) +
      (((VerifyExecution envW txW cbW sRich).2).acc txW.to_ -
        sRich.acc txW.to_) =
      -((txW.gasPrice * (GasCountOfTxBase txW + 0 + 0) : Nat)) :=
  verifyExecution_conservation envW txW cbW sRich
    ⟨0, fun a => (0, none, a)⟩ 0 sRich.acc
    (by decide) (by decide) rfl (by decide) rfl (by decide)
    (by decide) (by decide) (by decide)

/-- `C4` counterexample: a payload reporting 1000 units of execution gas on
a transaction with base gas 20000 and gas limit 20000 makes
`VerifyExecution` return 21000 gas — strictly above the gas limit — so the
gas is not clamped to `tx.gasLimit`. -/
theorem verifyExecution_gas_not_clamped :
    (VerifyExecution envOver txW cbW sRich).1.1 = 21000 ∧
    txW.gasLimit < (VerifyExecution envOver txW cbW sRich).1.1 := by
  constructor <;> decide

/-- `C4` amended: whenever execution reaches the payload-execution step, the
gas that `VerifyExecution` charges and returns equals
`used + gas_execution` with no clamping, where `used` is the transaction
base gas plus the payload base gas; it can therefore exceed `tx.gasLimit`.
The charge is stated on every branch past payload execution: with
pairwise-distinct from, to and coinbase addresses, the coinbase is credited
and the sender debited by `gasPrice * gas` — on the rollback branch
relative to the restored pre-batch state, on the commit branches relative
to the committed post-payload state (the successful settlement additionally
debits the transferred value from the sender). -/
theorem verifyExecution_gas_unclamped (env : PayloadEnv) (tx : Transaction)
    (coinbase : Addr) (s : ExecState) (p : TxPayload) (ge : Nat)
    (errOpt : Option Err) (acc2 : Balances)
    (h1 : ¬ s.acc tx.from_ < (MinBalanceRequired tx : Int))
    (h2 : ¬ tx.gasLimit < GasCountOfTxBase tx)
    (hLP : LoadPayload env tx = Except.ok p)
    (h3 : ¬ tx.gasLimit < GasCountOfTxBase tx + p.baseGasCount)
    (hE : p.execute s.acc = (ge, errOpt, acc2))
    (hft : tx.from_ ≠ tx.to_) (hfc : tx.from_ ≠ coinbase)
    (htc : tx.to_ ≠ coinbase) :
    (VerifyExecution env tx coinbase s).1 =
      (GasCountOfTxBase tx + p.baseGasCount + ge, none) ∧
    (∀ e, errOpt = some e →
      ((VerifyExecution env tx coinbase s).2).acc tx.from_ =
        s.acc tx.from_ -
          (tx.gasPrice * (GasCountOfTxBase tx + p.baseGasCount + ge) : Nat) ∧
      ((VerifyExecution env tx coinbase s).2).acc coinbase =
        s.acc coinbase +
          (tx.gasPrice * (GasCountOfTxBase tx + p.baseGasCount + ge) : Nat)) ∧
    (errOpt = none →
      gasConsumption tx coinbase (GasCountOfTxBase tx + p.baseGasCount + ge)
          acc2 tx.from_ < (tx.value : Int) →
      ((VerifyExecution env tx coinbase s).2).acc tx.from_ =
        acc2 tx.from_ -
          (tx.gasPrice * (GasCountOfTxBase tx + p.baseGasCount + ge) : Nat) ∧
      ((VerifyExecution env tx coinbase s).2).acc coinbase =
        acc2 coinbase +
          (tx.gasPrice * (GasCountOfTxBase tx + p.baseGasCount + ge) : Nat)) ∧
    (errOpt = none →
      ¬ gasConsumption tx coinbase
          (GasCountOfTxBase tx + p.baseGasCount + ge) acc2 tx.from_ <
        (tx.value : Int) →
      ((VerifyExecution env tx coinbase s).2).acc tx.from_ =
        acc2 tx.from_ -
          (tx.gasPrice * (GasCountOfTxBase tx + p.baseGasCount + ge) : Nat) -
          tx.value ∧
      ((VerifyExecution env tx coinbase s).2).acc coinbase =
        acc2 coinbase +
          (tx.gasPrice * (GasCountOfTxBase tx + p.baseGasCount + ge) : Nat)) := by
  have hft' : tx.to_ ≠ tx.from_ := Ne.symm hft
  have hfc' : coinbase ≠ tx.from_ := Ne.symm hfc
  have htc' : coinbase ≠ tx.to_ := Ne.symm htc
  refine ⟨?_, ?_, ?_, ?_⟩
  · cases hEo : errOpt with
    | some e =>
        rw [hEo] at hE
        simp [VerifyExecution, h1, h2, hLP, h3, hE, beginBatch]
    | none =>
        rw [hEo] at hE
        by_cases h4 :
          gasConsumption tx coinbase
              (GasCountOfTxBase tx + p.baseGasCount + ge) acc2 tx.from_ <
            (tx.value : Int) <;>
          simp [VerifyExecution, h1, h2, hLP, h3, hE, h4, beginBatch, commit]
  · intro e hEo
    rw [hEo] at hE
    have hmain :
        ((VerifyExecution env tx coinbase s).2).acc =
          gasConsumption tx coinbase
            (GasCountOfTxBase tx + p.baseGasCount + ge) s.acc := by
      simp [VerifyExecution, h1, h2, hLP, h3, hE, beginBatch, rollBack,
        triggerEvent]
    rw [hmain]
    simp [gasConsumption, addBalance, subBalance, hfc, hfc']
  · intro hEo h4
    rw [hEo] at hE
    have hmain :
        ((VerifyExecution env tx coinbase s).2).acc =
          gasConsumption tx coinbase
            (GasCountOfTxBase tx + p.baseGasCount + ge) acc2 := by
      simp [VerifyExecution, h1, h2, hLP, h3, hE, h4, beginBatch, commit,
        triggerEvent]
    rw [hmain]
    simp [gasConsumption, addBalance, subBalance, hfc, hfc']
  · intro hEo h4
    rw [hEo] at hE
    have hmain :
        ((VerifyExecution env tx coinbase s).2).acc =
          addBalance
            (subBalance
              (gasConsumption tx coinbase
                (GasCountOfTxBase tx + p.baseGasCount + ge) acc2)
              tx.from_ tx.value)
            tx.to_ tx.value := by
      simp [VerifyExecution, h1, h2, hLP, h3, hE, h4, beginBatch, commit,
        triggerEvent]
    rw [hmain]
    constructor
    · simp [gasConsumption, addBalance, subBalance, hft, hfc, hfc']
    · simp [gasConsumption, addBalance, subBalance, hfc, hfc', htc']

/-- Witness for the amended `C4` at a concrete overspending payload: the
returned gas is the unclamped sum, the sender is debited by
`gasPrice * gas` plus the transferred value, and the coinbase is credited
by `gasPrice * gas`. -/
theorem verifyExecution_gas_unclamped_witness :
    (VerifyExecution envOver txW cbW sRich).1 =
      (GasCountOfTxBase txW + 0 + 1000, none) ∧
    ((VerifyExecution envOver txW cbW sRich).2).acc txW.from_ =
      sRich.acc txW.from_ -
        (txW.gasPrice * (GasCountOfTxBase txW + 0 + 1000) : Nat) -
        txW.value ∧
    ((VerifyExecution envOver txW cbW sRich).2).acc cbW =
      sRich.acc cbW +
        (txW.gasPrice * (GasCountOfTxBase txW + 0 + 1000) : Nat) := by
  have h := verifyExecution_gas_unclamped envOver txW cbW sRich
    ⟨0, fun a => (1000, none, a)⟩ 1000 none sRich.acc
    (by decide) (by decide) rfl (by decide) rfl (by decide) (by decide)
    (by decide)
  exact ⟨h.1, (h.2.2.2 rfl (by decide)).1, (h.2.2.2 rfl (by decide)).2⟩

/-- `C5` counterexample: when the payload decodes but base gas plus payload
base gas exceeds the gas limit, the recorded `ExecuteTxFailed` event carries
an empty error slot — the stale nil `err` variable — not the OutOfGasLimit
error the claim requires. -/
theorem verifyExecution_baseGas_event_error_empty :
    (VerifyExecution envBig txW cbW sRich).2.events =
      [(txW.hash, { topic := TopicExecuteTxFailed, err := none })] ∧
    (none : Option Err) ≠ some Err.outOfGasLimit := by
  constructor <;> decide

/-- `C5` amended: for every transaction that passes the pre-flight checks
and whose payload decodes, if the gas limit is below base gas plus payload
base gas then `VerifyExecution` debits the sender and credits the coinbase
by `gasPrice * gasLimit`, records an `ExecuteTxFailed` event whose error
slot is empty (the stale nil `err`), and returns `(gasLimit, nil)`. -/
theorem verifyExecution_baseGas_exceeded (env : PayloadEnv)
    (tx : Transaction) (coinbase : Addr) (s : ExecState) (p : TxPayload)
    (h1 : ¬ s.acc tx.from_ < (MinBalanceRequired tx : Int))
    (h2 : ¬ tx.gasLimit < GasCountOfTxBase tx)
    (hLP : LoadPayload env tx = Except.ok p)
    (h3 : tx.gasLimit < GasCountOfTxBase tx + p.baseGasCount)
    (hfc : tx.from_ ≠ coinbase) :
    (VerifyExecution env tx coinbase s).1 = (tx.gasLimit, none) ∧
    ((VerifyExecution env tx coinbase s).2).events =
      s.events ++
        [(tx.hash, { topic := TopicExecuteTxFailed, err := none })] ∧
    ((VerifyExecution env tx coinbase s).2).acc tx.from_ =
      s.acc tx.from_ - (tx.gasPrice * tx.gasLimit : Nat) ∧
    ((VerifyExecution env tx coinbase s).2).acc coinbase =
      s.acc coinbase + (tx.gasPrice * tx.gasLimit : Nat) := by
  have hfc' : coinbase ≠ tx.from_ := Ne.symm hfc
  refine ⟨?_, ?_, ?_, ?_⟩ <;>
    simp [VerifyExecution, h1, h2, hLP, h3, beginBatch, triggerEvent,
      gasConsumption, addBalance, subBalance, hfc, hfc']

/-- Witness for the amended `C5` at a concrete high-base-gas payload. -/
theorem verifyExecution_baseGas_exceeded_witness :
    (VerifyExecution envBig txW cbW sRich).1 = (txW.gasLimit, none) ∧
    ((VerifyExecution envBig txW cbW sRich).2).events =
      sRich.events ++
        [(txW.hash, { topic := TopicExecuteTxFailed, err := none })] ∧
    ((VerifyExecution envBig txW cbW sRich).2).acc txW.from_ =
      sRich.acc txW.from_ - (txW.gasPrice * txW.gasLimit : Nat) ∧
    ((VerifyExecution envBig txW cbW sRich).2).acc cbW =
      sRich.acc cbW + (txW.gasPrice * txW.gasLimit : Nat) :=
  verifyExecution_baseGas_exceeded envBig txW cbW sRich
    ⟨20000, fun a => (0, none, a)⟩ (by decide) (by decide) rfl (by decide)
    (by decide)

/-- `C7` evidence: on the augmented base-gas-check path the source returns
after `BeginBatch` without `Commit` or `RollBack`: at a concrete input that
reaches that path with an empty initial batch stack, `VerifyExecution`
returns with one batch still open. -/
theorem verifyExecution_batch_left_open :
    ((VerifyExecution envBig txW cbW sRich).2).batch.length = 1 ∧
    (VerifyExecution envBig txW cbW sRich).1 = (txW.gasLimit, none) ∧
    sRich.batch.length = 0 := by
  refine ⟨?_, ?_, ?_⟩ <;> decide

/-- `C6`: `VerifyIntegrity` performs its three checks in order and returns
the first failure: `ErrInvalidChainID` on a chain-id mismatch; otherwise
`ErrInvalidTransactionHash` when the recomputed canonical hash differs from
`tx.hash`; otherwise `ErrInvalidTransactionSigner` when the address derived
from the recovered public key does not byte-equal `tx.from`; otherwise
success. -/
theorem verifyIntegrity_spec (sha : List Nat → List Nat) (env : SignEnv)
    (cid : Nat) (tx : Transaction) (pub pubdata addr : Bytes) :
    (tx.chainID ≠ cid →
      VerifyIntegrity sha env cid tx = Except.error Err.invalidChainID) ∧
    (tx.chainID = cid → ∀ w, HashTransaction sha tx = some w →
      w ≠ tx.hash →
      VerifyIntegrity sha env cid tx =
        Except.error Err.invalidTransactionHash) ∧
    (tx.chainID = cid → HashTransaction sha tx = some tx.hash →
      env.newSignature tx.alg = Except.ok () →
      env.recoverPublic tx.alg tx.hash tx.sign = Except.ok pub →
      env.encoded pub = Except.ok pubdata →
      env.addressFromPublicKey pubdata = Except.ok addr →
      tx.from_ ≠ addr →
      VerifyIntegrity sha env cid tx =
        Except.error Err.invalidTransactionSigner) ∧
    (tx.chainID = cid → HashTransaction sha tx = some tx.hash →
      env.newSignature tx.alg = Except.ok () →
      env.recoverPublic tx.alg tx.hash tx.sign = Except.ok pub →
      env.encoded pub = Except.ok pubdata →
      env.addressFromPublicKey pubdata = Except.ok addr →
      tx.from_ = addr →
      VerifyIntegrity sha env cid tx = Except.ok ()) := by
  refine ⟨?_, ?_, ?_, ?_⟩
  · intro h
    simp [VerifyIntegrity, h]
  · intro hc w hw hne
    simp [VerifyIntegrity, hc, hw, hne]
  · intro hc hw hns hrp henc haddr hne
    simp [VerifyIntegrity, verifySign, hc, hw, hns, hrp, henc, haddr, hne]
  · intro hc hw hns hrp henc haddr heq
    simp [VerifyIntegrity, verifySign, hc, hw, hns, hrp, henc, haddr, heq]

/-- Witness for `C6`: a concrete transaction whose hash matches the oracle
and whose recovered address equals the sender passes `VerifyIntegrity`. -/
theorem verifyIntegrity_spec_witness :
    VerifyIntegrity shaW signEnvW 100 txHashW = Except.ok () :=
  (verifyIntegrity_spec shaW signEnvW 100 txHashW [5] [5] [1]).2.2.2
    rfl rfl rfl rfl rfl rfl (by decide)

/-- The big-endian encoding produces exactly `k` bytes. -/
theorem beBytes_length (k : Nat) : ∀ n, (beBytes k n).length = k := by
  induction k with
  | zero => intro n; simp [beBytes]
  | succ k ih => intro n; simp [beBytes, ih]

/-- Appending a final byte multiplies the decoded value by 256 and adds the
byte. -/
theorem bytesToNat_append_singleton (xs : List Nat) (b : Nat) :
    bytesToNat (xs ++ [b]) = bytesToNat xs * 256 + b := by
  simp [bytesToNat, List.foldl_append]

/-- Decoding the `k`-byte big-endian encoding recovers the value modulo
`256 ^ k`. -/
theorem bytesToNat_beBytes (k : Nat) :
    ∀ n, bytesToNat (beBytes k n) = n % 256 ^ k := by
  induction k with
  | zero => intro n; simp [beBytes, bytesToNat, Nat.mod_one]
  | succ k ih =>
      intro n
      simp only [beBytes, bytesToNat_append_singleton, ih]
      rw [pow_succ']
      rw [Nat.mod_mul]
      ring

/-- Decoding inverts the fixed-size encoding on 128-bit values. -/
theorem fromFixedSizeByteSlice_beBytes (n : Nat) (h : n < 2 ^ 128) :
    fromFixedSizeByteSlice (beBytes 16 n) = some n := by
  have h' : n < 340282366920938463463374607431768211456 := h
  simp [fromFixedSizeByteSlice, beBytes_length, bytesToNat_beBytes,
    Nat.mod_eq_of_lt h']

/-- `C10`: for every transaction whose `value`, `gasPrice` and `gasLimit`
fit in 128 bits (so their fixed-size encodings succeed) and whose `alg` is
in the `uint8` range the Go field type guarantees, `ToProto` followed by
`FromProto` succeeds and returns a transaction all of whose fields equal the
original's. -/
theorem toProto_fromProto_roundtrip (tx : Transaction)
    (hv : tx.value < 2 ^ 128) (hp : tx.gasPrice < 2 ^ 128)
    (hl : tx.gasLimit < 2 ^ 128) (ha : tx.alg < 256) :
    (ToProto tx).bind FromProto = some tx := by
  have hv' : tx.value < 340282366920938463463374607431768211456 := hv
  have hp' : tx.gasPrice < 340282366920938463463374607431768211456 := hp
  have hl' : tx.gasLimit < 340282366920938463463374607431768211456 := hl
  simp [ToProto, toFixedSizeByteSlice, hv', hp', hl', FromProto,
    fromFixedSizeByteSlice_beBytes tx.value hv,
    fromFixedSizeByteSlice_beBytes tx.gasPrice hp,
    fromFixedSizeByteSlice_beBytes tx.gasLimit hl,
    Nat.mod_eq_of_lt ha]

/-- Witness for `C10` at a concrete transaction. -/
theorem toProto_fromProto_roundtrip_witness :
    (ToProto txW).bind FromProto = some txW :=
  toProto_fromProto_roundtrip txW (by decide) (by decide) (by decide)
    (by decide)

end Nebulas
